import Mathlib

/-!
Verification of the orchestration / validation / rendering core of
`src/Recipe_Architect.py` (AI Recipe Architect).

The Python source is shallowly embedded as executable Lean definitions:

* `pyStrip`            — Python `str.strip()` (whitespace trim on both ends);
* `pyReplace`          — Python `str.replace(pat, "")` (left-to-right,
                         non-overlapping deletion of every occurrence);
* `json_content_of`    — the fence-stripping expression
                         `resp.replace('```json','').replace('```','').strip()`
                         from lines 55 and 87;
* `cleanStep`          — `re.sub(r"^[0-9]+[.)\s]+", "", step).strip()`
                         from lines 191 and 263;
* `pdfFileName`        — `re.sub(r'[^a-zA-Z0-9]', '_', title) + ".pdf"`
                         from line 276;
* a JSON acceptor/parser (`jsonParse`, `jsonValid`) and printer (`jsonDumps`)
  modelling Python `json.loads` / `json.dumps`;
* `create_recipe`, `get_nutritional_info`, `generate_recipe_image` — the three
  tools, with the external service's behaviour supplied as an explicit outcome
  argument (the code never inspects anything else);
* `create_recipe_pdf`  — the document renderer, with the image fetch, the
  temp-file staging write and the embedding step as explicit outcomes;
* `runPipeline`        — the Streamlit button handler's session-state updates.

Machine-level corners that no claim touches are noted where they are
simplified (lone-surrogate decoding, astral-plane `\u` pairs).
-/

set_option maxRecDepth 100000

/-! ### Character classes used by the Python code -/

/-- ASCII decimal digit, the `[0-9]` class of the instruction-prefix regex. -/
def isDig (c : Char) : Bool := '0' ≤ c && c ≤ '9'

/-- Whitespace as stripped by Python `str.strip()` and matched by `\s`
(ASCII part: space, tab, newline, carriage return, vertical tab, form feed;
exotic Unicode whitespace is not modelled — no claim involves it). -/
def pySpace (c : Char) : Bool :=
  c = ' ' || c = '\t' || c = '\n' || c = Char.ofNat 13 || c = Char.ofNat 11 || c = Char.ofNat 12

/-- The `[.)\s]` class of the instruction-prefix regex `^[0-9]+[.)\s]+`. -/
def isNumPunct (c : Char) : Bool := c = '.' || c = ')' || pySpace c

/-- ASCII alphanumeric, the `[a-zA-Z0-9]` class of the filename regex. -/
def isAsciiAlnum (c : Char) : Bool :=
  ('a' ≤ c && c ≤ 'z') || ('A' ≤ c && c ≤ 'Z') || ('0' ≤ c && c ≤ '9')

/-! ### Python `str.strip()` -/

/-- Python `str.strip()` on a character list: drop leading whitespace, then
trailing whitespace (implemented by reversing). -/
def pyStrip (l : List Char) : List Char :=
  ((l.dropWhile pySpace).reverse.dropWhile pySpace).reverse

/-! ### Python `str.replace(pat, "")` -/

/-- Python `s.replace(pat, "")` for a fixed nonempty pattern, fuel-indexed so
that the recursion is structural (the kernel can evaluate it).  Scans left to
right; at a match it skips the matched characters and continues after them
(non-overlapping), exactly like CPython.  The fuel is consumed once per
character examined, so `l.length + 1` is always sufficient. -/
def pyReplaceF (pat : List Char) : Nat → List Char → List Char
  | 0, l => l
  | _ + 1, [] => []
  | fuel + 1, c :: cs =>
    if !pat.isEmpty && pat.isPrefixOf (c :: cs) then
      pyReplaceF pat fuel (List.drop (pat.length - 1) cs)
    else
      c :: pyReplaceF pat fuel cs

/-- Python `s.replace(pat, "")` (deletion of every occurrence). -/
def pyReplace (pat l : List Char) : List Char := pyReplaceF pat (l.length + 1) l

/-- Does `pat` occur as a contiguous substring of `l`? -/
def containsSub (pat : List Char) : List Char → Bool
  | [] => pat.isEmpty
  | c :: cs => pat.isPrefixOf (c :: cs) || containsSub pat cs

/-! ### The fence-stripping expression of lines 55 and 87 -/

/-- The text handed to `json.loads`:
`response.content.replace('```json', '').replace('```', '').strip()`. -/
def json_content_of (raw : String) : String :=
  String.mk (pyStrip (pyReplace "```".data (pyReplace "```json".data raw.data)))

/-! ### The instruction-prefix cleaning of lines 191 and 263 -/

/-- Deletes the leftmost match of `^[0-9]+[.)\s]+`, if any.  The regex is
anchored and its two classes are disjoint, so the (greedy, backtracking)
match is simply: a maximal nonempty run of digits followed by a maximal
nonempty run of `[.)\s]` characters. -/
def stripNumPrefix (cs : List Char) : List Char :=
  if (cs.takeWhile isDig).isEmpty then cs
  else
    let rest := cs.dropWhile isDig
    if (rest.takeWhile isNumPunct).isEmpty then cs
    else rest.dropWhile isNumPunct

/-- The instruction cleaning `re.sub(r"^[0-9]+[.)\s]+", "", step).strip()`. -/
def cleanStep (s : String) : String := String.mk (pyStrip (stripNumPrefix s.data))

/-- True when the string begins with an ASCII digit. -/
def startsWithDigit (s : String) : Bool :=
  match s.data with
  | [] => false
  | c :: _ => isDig c

/-! ### The download filename of line 276 -/

/-- Models `re.sub` over a single-character class: every character of the
class is replaced, all others kept. -/
def reSubClass (inClass : Char → Bool) (repl : Char) (s : String) : String :=
  String.mk (s.data.map (fun c => if inClass c then repl else c))

/-- The download filename
`re.sub(r'[^a-zA-Z0-9]', '_', recipe_data['title']) + ".pdf"`. -/
def pdfFileName (title : String) : String :=
  reSubClass (fun c => !isAsciiAlnum c) '_' title ++ ".pdf"

/-! ### JSON values, `json.loads`, `json.dumps` -/

/-!
Parsed JSON values.  Numbers keep their lexeme (the code never computes
with them); object members keep source order with duplicates (lookup below
gives the last occurrence, as a Python dict built by `json.loads` would).
Element and member lists are bespoke mutual inductives so that every
function over them is plain structural recursion.
-/
mutual
inductive JVal where
  | null
  | bool (b : Bool)
  | num (lexeme : String)
  | str (s : String)
  | arr (elements : JElems)
  | obj (members : JMembers)
inductive JElems where
  | nil
  | cons (head : JVal) (tail : JElems)
inductive JMembers where
  | nil
  | cons (key : String) (value : JVal) (tail : JMembers)
end

/-- Lookup among object members where a later duplicate shadows an earlier
one, as in the Python dict built by `json.loads`. -/
def findLastKey (k : String) : JMembers → Option JVal
  | .nil => none
  | .cons key v tail =>
    match findLastKey k tail with
    | some w => some w
    | none => if key == k then some v else none

/-- Python `d[k]` on a decoded JSON value: a value only for an object that
has the key; `none` models the `KeyError`/`TypeError` raised otherwise. -/
def getKey (v : JVal) (k : String) : Option JVal :=
  match v with
  | .obj ms => findLastKey k ms
  | _ => none

/-- JSON structural whitespace accepted by `json.loads`. -/
def isJsonWs (c : Char) : Bool := c = ' ' || c = '\t' || c = '\n' || c = Char.ofNat 13

def skipWs (cs : List Char) : List Char := cs.dropWhile isJsonWs

def hexVal (c : Char) : Option Nat :=
  if '0' ≤ c && c ≤ '9' then some (c.toNat - 48)
  else if 'a' ≤ c && c ≤ 'f' then some (c.toNat - 87)
  else if 'A' ≤ c && c ≤ 'F' then some (c.toNat - 55)
  else none

/-- Single-character JSON string escapes. -/
def escChar (c : Char) : Option Char :=
  if c = '"' then some '"'
  else if c = '\\' then some '\\'
  else if c = '/' then some '/'
  else if c = 'b' then some (Char.ofNat 8)
  else if c = 'f' then some (Char.ofNat 12)
  else if c = 'n' then some '\n'
  else if c = 'r' then some (Char.ofNat 13)
  else if c = 't' then some '\t'
  else none

/-- Body of a JSON string (after the opening quote): returns the decoded
characters and the input after the closing quote.  Unescaped control
characters are rejected (`json.loads` default `strict=True`).  A lone
surrogate `\uXXXX` decodes to NUL here where CPython would keep the
surrogate — a corner no claim depends on. -/
def parseStringBody : List Char → Option (List Char × List Char)
  | [] => none
  | c :: cs =>
    if c = '"' then some ([], cs)
    else if c = '\\' then
      match cs with
      | 'u' :: h1 :: h2 :: h3 :: h4 :: rest =>
        match hexVal h1, hexVal h2, hexVal h3, hexVal h4 with
        | some a, some b, some c2, some d =>
          match parseStringBody rest with
          | some (out, r) => some (Char.ofNat (((a * 16 + b) * 16 + c2) * 16 + d) :: out, r)
          | none => none
        | _, _, _, _ => none
      | e :: rest =>
        match escChar e with
        | some ch =>
          match parseStringBody rest with
          | some (out, r) => some (ch :: out, r)
          | none => none
        | none => none
      | [] => none
    else if c.toNat < 32 then none
    else
      match parseStringBody cs with
      | some (out, r) => some (c :: out, r)
      | none => none

/-- Exponent part of the `json.loads` number regex
`([eE][-+]?\d+)?`: consumed only when complete. -/
def numExpPart (lex rest : List Char) : List Char × List Char :=
  match rest with
  | e :: r =>
    if e = 'e' || e = 'E' then
      let sgnPair :=
        match r with
        | '+' :: rr => (['+'], rr)
        | '-' :: rr => (['-'], rr)
        | _ => (([] : List Char), r)
      let ds := sgnPair.snd.takeWhile isDig
      if ds.isEmpty then (lex, rest)
      else (lex ++ e :: sgnPair.fst ++ ds, sgnPair.snd.dropWhile isDig)
    else (lex, rest)
  | [] => (lex, rest)

/-- Fraction-then-exponent part of the number regex `(\.\d+)?([eE][-+]?\d+)?`. -/
def numFracPart (lex rest : List Char) : List Char × List Char :=
  match rest with
  | '.' :: r =>
    let ds := r.takeWhile isDig
    if ds.isEmpty then numExpPart lex rest
    else numExpPart (lex ++ '.' :: ds) (r.dropWhile isDig)
  | _ => numExpPart lex rest

/-- The `json.loads` number regex `(-?(?:0|[1-9]\d*))(\.\d+)?([eE][-+]?\d+)?`
matched at the start of the input: lexeme and remaining input. -/
def parseNumber (cs : List Char) : Option (List Char × List Char) :=
  let sgnPair :=
    match cs with
    | '-' :: r => (['-'], r)
    | _ => (([] : List Char), cs)
  match sgnPair.snd with
  | [] => none
  | d :: r =>
    if d = '0' then some (numFracPart (sgnPair.fst ++ [d]) r)
    else if isDig d then
      some (numFracPart (sgnPair.fst ++ d :: r.takeWhile isDig) (r.dropWhile isDig))
    else none

/-- The three parsing modes of the recursive-descent scanner: a value, the
members of an object after `{`, the elements of an array after `[`. -/
inductive PMode where
  | val
  | members
  | elems

/-- Recursive-descent JSON scanner, structural on a fuel argument so that the
kernel can evaluate it.  Every fuel step either consumes input or moves from
a composite opener to its members, so `2 * length + 4` fuel (used by
`jsonParse`) always suffices.  Grammar is that of Python `json.loads` with
default arguments, including the non-standard constants `NaN`, `Infinity`
and `-Infinity`. -/
def parseF : Nat → PMode → List Char → Option (JVal × List Char)
  | 0, _, _ => none
  | n + 1, .val, cs0 =>
    match skipWs cs0 with
    | [] => none
    | c :: rest =>
      if c = Char.ofNat 123 then
        match skipWs rest with
        | c2 :: r2 =>
          if c2 = Char.ofNat 125 then some (.obj .nil, r2)
          else parseF n .members rest
        | [] => none
      else if c = '[' then
        match skipWs rest with
        | c2 :: r2 =>
          if c2 = ']' then some (.arr .nil, r2)
          else parseF n .elems rest
        | [] => none
      else if c = '"' then
        match parseStringBody rest with
        | some (out, r) => some (.str (String.mk out), r)
        | none => none
      else if "true".data.isPrefixOf (c :: rest) then some (.bool true, (c :: rest).drop 4)
      else if "false".data.isPrefixOf (c :: rest) then some (.bool false, (c :: rest).drop 5)
      else if "null".data.isPrefixOf (c :: rest) then some (.null, (c :: rest).drop 4)
      else if "NaN".data.isPrefixOf (c :: rest) then some (.num "NaN", (c :: rest).drop 3)
      else if "Infinity".data.isPrefixOf (c :: rest) then some (.num "Infinity", (c :: rest).drop 8)
      else if "-Infinity".data.isPrefixOf (c :: rest) then some (.num "-Infinity", (c :: rest).drop 9)
      else
        match parseNumber (c :: rest) with
        | some (lex, r) => some (.num (String.mk lex), r)
        | none => none
  | n + 1, .members, cs0 =>
    match skipWs cs0 with
    | c :: rest =>
      if c = '"' then
        match parseStringBody rest with
        | some (kOut, r2) =>
          match skipWs r2 with
          | c3 :: r3 =>
            if c3 = ':' then
              match parseF n .val r3 with
              | some (v, r4) =>
                match skipWs r4 with
                | c5 :: r5 =>
                  if c5 = ',' then
                    match parseF n .members r5 with
                    | some (.obj ms, r6) => some (.obj (.cons (String.mk kOut) v ms), r6)
                    | _ => none
                  else if c5 = Char.ofNat 125 then
                    some (.obj (.cons (String.mk kOut) v .nil), r5)
                  else none
                | [] => none
              | none => none
            else none
          | [] => none
        | none => none
      else none
    | [] => none
  | n + 1, .elems, cs0 =>
    match parseF n .val cs0 with
    | some (v, r) =>
      match skipWs r with
      | c2 :: r2 =>
        if c2 = ',' then
          match parseF n .elems r2 with
          | some (.arr vs, r3) => some (.arr (.cons v vs), r3)
          | _ => none
        else if c2 = ']' then some (.arr (.cons v .nil), r2)
        else none
      | [] => none
    | none => none

/-- Python `json.loads`: parse one value and require only whitespace after it. -/
def jsonParse (s : String) : Option JVal :=
  match parseF (2 * s.length + 4) .val s.data with
  | some (v, rest) => if skipWs rest = [] then some v else none
  | none => none

/-- Does `json.loads` succeed on this text?  Exactly the check performed by
`create_recipe` / `get_nutritional_info` before returning the text. -/
def jsonValid (s : String) : Bool := (jsonParse s).isSome

/-! ### `json.dumps` (defaults: `ensure_ascii=True`, separators `", "`/`": "`) -/

def hexDig (n : Nat) : Char := if n < 10 then Char.ofNat (48 + n) else Char.ofNat (87 + n)

def hex4 (n : Nat) : List Char :=
  [hexDig (n / 4096 % 16), hexDig (n / 256 % 16), hexDig (n / 16 % 16), hexDig (n % 16)]

/-- How `json.dumps` writes one character of a string: short escapes for the
usual controls, `\uXXXX` for other controls and for everything outside
printable ASCII. -/
def escapeOut (c : Char) : List Char :=
  if c = '"' then ['\\', '"']
  else if c = '\\' then ['\\', '\\']
  else if c = '\n' then ['\\', 'n']
  else if c = '\t' then ['\\', 't']
  else if c = Char.ofNat 13 then ['\\', 'r']
  else if c = Char.ofNat 8 then ['\\', 'b']
  else if c = Char.ofNat 12 then ['\\', 'f']
  else if c.toNat < 32 || 126 < c.toNat then '\\' :: 'u' :: hex4 c.toNat
  else [c]

def concatAll : List (List Char) → List Char
  | [] => []
  | x :: xs => x ++ concatAll xs

def dumpsStr (s : String) : String :=
  String.mk ('"' :: concatAll (s.data.map escapeOut) ++ ['"'])

/-!
Python `json.dumps` with default arguments (`ensure_ascii=True`,
separators `", "` and `": "`).
-/
mutual
def jsonDumps : JVal → String
  | .null => "null"
  | .bool true => "true"
  | .bool false => "false"
  | .num lex => lex
  | .str s => dumpsStr s
  | .arr vs => "[" ++ jsonDumpsElems vs ++ "]"
  | .obj ms => "\x7b" ++ jsonDumpsMembers ms ++ "\x7d"
def jsonDumpsElems : JElems → String
  | .nil => ""
  | .cons v .nil => jsonDumps v
  | .cons v (.cons w tail) => jsonDumps v ++ ", " ++ jsonDumpsElems (.cons w tail)
def jsonDumpsMembers : JMembers → String
  | .nil => ""
  | .cons k v .nil => dumpsStr k ++ ": " ++ jsonDumps v
  | .cons k v (.cons k2 w tail) =>
    dumpsStr k ++ ": " ++ jsonDumps v ++ ", " ++ jsonDumpsMembers (.cons k2 w tail)
end

/-! ### The text-generation tools (lines 36-95) -/

/-- Outcome of one `llm.invoke(prompt)` call as observed by the tool code:
either the call raised, or it returned a message whose `.content` is the
given text.  The tool inspects nothing else about the service. -/
inductive SvcOutcome where
  | raised
  | content (text : String)

/-- The sentinel recipe dict of lines 60-66. -/
def sentinelRecipeVal : JVal :=
  .obj (.cons "title" (.str "Failed to generate recipe")
    (.cons "description" (.str "Please try again.")
      (.cons "ingredients" (.arr .nil)
        (.cons "instructions" (.arr .nil)
          (.cons "image_keywords" (.str "") .nil)))))

/-- `json.dumps` of the sentinel recipe dict — the exact string returned by
`create_recipe` on failure. -/
def sentinelRecipeJson : String := jsonDumps sentinelRecipeVal

/-- The sentinel nutrition dict of lines 92-95. -/
def sentinelNutritionVal : JVal :=
  .obj (.cons "calories" (.num "0")
    (.cons "protein_grams" (.num "0")
      (.cons "fat_grams" (.num "0")
        (.cons "carbs_grams" (.num "0")
          (.cons "summary" (.str "Nutritional info unavailable.") .nil)))))

/-- `json.dumps` of the sentinel nutrition dict — the exact string returned
by `get_nutritional_info` on failure. -/
def sentinelNutritionJson : String := jsonDumps sentinelNutritionVal

/-- `create_recipe` (lines 36-66).  `ingredients` and `dietary_needs` only
shape the prompt, and the service's behaviour is the explicit outcome.
The `try` block strips fences and runs `json.loads` purely as a check; on
success the *stripped text* is returned as-is (no shape validation), and any
exception — service error or parse error — yields the sentinel string. -/
def create_recipe (ingredients dietary_needs : String) (svc : SvcOutcome) : String :=
  match svc with
  | .raised => sentinelRecipeJson
  | .content raw =>
    let jc := json_content_of raw
    if jsonValid jc then jc else sentinelRecipeJson

/-- `get_nutritional_info` (lines 68-95): identical structure to
`create_recipe` with the nutrition sentinel.  `recipe_text` only shapes the
prompt. -/
def get_nutritional_info (recipe_text : String) (svc : SvcOutcome) : String :=
  match svc with
  | .raised => sentinelNutritionJson
  | .content raw =>
    let jc := json_content_of raw
    if jsonValid jc then jc else sentinelNutritionJson

/-! ### The image tool `generate_recipe_image` (lines 97-117) -/

/-- Outcome of the `requests.get` call to the Pexels search endpoint:
either the call raised (timeout, transport error), or a response arrived
with the given status code and body.  `photos = none` models a body that is
not JSON or lacks the `photos[0]["src"]["original"]` shape (every such
lookup raises inside the `try` and is caught); `photos = some urls` models a
parsed `photos` array whose entries' `src.original` fields are `urls`. -/
inductive ImgOutcome where
  | transportRaise
  | resp (status : Nat) (photos : Option (List String))

/-- The fixed fallback of line 103. -/
def fallback_image : String := "https://images.pexels.com/photos/1640777/pexels-photo-1640777.jpeg"

/-- Python truthiness test `if not PEXELS_API_KEY` on `os.getenv`'s result:
true for an unset variable (`None`) and for the empty string. -/
def keyFalsy : Option String → Bool
  | none => true
  | some s => s == ""

/-- `generate_recipe_image` (lines 97-117).  With a falsy key the fallback
is returned before any request; `response.raise_for_status()` raises exactly
for 4xx/5xx; an empty `photos` array selects the fallback; otherwise the
first photo's `src.original` is returned verbatim. -/
def generate_recipe_image (apiKey : Option String) (image_keywords : String)
    (o : ImgOutcome) : String :=
  if keyFalsy apiKey then fallback_image
  else
    match o with
    | .transportRaise => fallback_image
    | .resp status photos =>
      if 400 ≤ status && status ≤ 599 then fallback_image
      else
        match photos with
        | none => fallback_image
        | some [] => fallback_image
        | some (u :: _) => u

/-! ### The document renderer `create_recipe_pdf` (lines 123-195) -/

/-- Display payload of a recipe dict as consumed by the renderer. -/
structure RecipeData where
  title : String
  description : String
  ingredients : List String
  instructions : List String

/-- Display payload of a nutrition dict as consumed by the renderer; the
numeric fields appear only via `str()` interpolation, so they are carried as
their rendered text. -/
structure NutritionData where
  calories : String
  protein_grams : String
  fat_grams : String
  carbs_grams : String
  summary : String

/-- The `info_line` f-string of line 174. -/
def infoLine (n : NutritionData) : String :=
  "Calories: " ++ n.calories ++ "   Protein: " ++ n.protein_grams ++ "g   Fat: "
    ++ n.fat_grams ++ "g   Carbs: " ++ n.carbs_grams ++ "g"

/-- One content block of the rendered document, in emission order. -/
inductive Block where
  | title (t : String)
  | description (d : String)
  | image
  | nutrition (summary info : String)
  | ingredients (lines : List String)
  | instructions (lines : List String)

/-- The bulleted ingredient lines of line 183. -/
def bulletLines (items : List String) : List String := items.map (fun i => "• " ++ i)

/-- The renumbered instruction lines of lines 190-192: `enumerate(..., 1)`
with the prefix cleaning applied to each step. -/
def numberedSteps (steps : List String) : List String :=
  steps.enum.map (fun p => toString (p.fst + 1) ++ ". " ++ cleanStep p.snd)

/-- Blocks emitted before the image block (title, quoted description). -/
def pdfHeadBlocks (r : RecipeData) : List Block :=
  [.title r.title, .description ("\"" ++ r.description ++ "\"")]

/-- Blocks emitted after the image block (nutrition, ingredients,
instructions). -/
def pdfTailBlocks (r : RecipeData) (n : NutritionData) : List Block :=
  [.nutrition n.summary (infoLine n),
   .ingredients (bulletLines r.ingredients),
   .instructions (numberedSteps r.instructions)]

/-- The document when the image block is skipped (non-200 fetch status). -/
def pdfBlocksNoImage (r : RecipeData) (n : NutritionData) : List Block :=
  pdfHeadBlocks r ++ pdfTailBlocks r n

/-- The document when the image block is embedded. -/
def pdfBlocksWithImage (r : RecipeData) (n : NutritionData) : List Block :=
  pdfHeadBlocks r ++ [.image] ++ pdfTailBlocks r n

/-- Outcome of the `requests.get(image_url, ...)` fetch of line 157: raised,
or returned a response with the given status code. -/
inductive FetchOutcome where
  | raise
  | resp (status : Nat)

/-- Outcome of a fallible step (the temp-file `write` of line 160, the
`pdf.image` embedding of line 162). -/
inductive StepOutcome where
  | ok
  | raise

/-- Environment of one `create_recipe_pdf` run: the three outcomes the image
block can observe. -/
structure PdfEnv where
  fetch : FetchOutcome
  write : StepOutcome
  embed : StepOutcome

/-- The exception escaping `create_recipe_pdf`, when one does: the image
block's `try` has a `finally` but no `except`, so these propagate. -/
inductive PdfErr where
  | imageFetchRaised
  | stagingWriteRaised
  | imageEmbedRaised

/-- `create_recipe_pdf` (lines 134-195).  Result: either the rendered block
list or the exception that escaped, paired with whether the staged temp file
is still on disk afterwards.  Tracing the source: a fetch exception
propagates before any file exists; on a non-200 status the `if` body is
skipped and rendering continues without the image; on 200 the temp file is
created and written, `image_path` is assigned only *after* the write, and
the `finally` removes the file exactly when `image_path` was assigned. -/
def create_recipe_pdf (r : RecipeData) (n : NutritionData) (image_url : String)
    (env : PdfEnv) : Except PdfErr (List Block) × Bool :=
  match env.fetch with
  | .raise => (Except.error .imageFetchRaised, false)
  | .resp status =>
    if status = 200 then
      match env.write with
      | .raise => (Except.error .stagingWriteRaised, true)
      | .ok =>
        match env.embed with
        | .raise => (Except.error .imageEmbedRaised, false)
        | .ok => (Except.ok (pdfBlocksWithImage r n), false)
    else (Except.ok (pdfBlocksNoImage r n), false)

/-- A fixed well-formed recipe payload used for concrete evaluations. -/
def sampleRecipe : RecipeData :=
  ⟨"Chicken Broccoli Pasta", "A cozy dinner.",
   ["chicken", "broccoli", "pasta"],
   ["1. Preheat the oven", "2) Mix well"]⟩

/-- A fixed well-formed nutrition payload used for concrete evaluations. -/
def sampleNutrition : NutritionData := ⟨"520", "35", "18", "55", "Balanced meal."⟩

/-! ### The Streamlit session pipeline (lines 201-234) -/

/-- The three session slots initialised to `None` at lines 201-206. -/
structure Session where
  recipe_data : Option JVal
  nutrition_data : Option JVal
  image_url : Option String

/-- Lines 226-231, the part of the button handler after `recipe_data` has
been stored: `recipe_data['image_keywords']` is read — if the parsed value
is not a dict with a *string* at that key, the lookup (or the image tool's
pydantic validation of its `str` field) raises, the `except` of line 233
catches it, and the handler stops with only `recipe_data` updated;
otherwise the image tool's URL is stored and then the nutrition tool's
parsed result.  The `none` fallback for the inner `jsonParse` is
unreachable (the tool returns JSON-parseable text) but keeps the definition
total the way the `except` clause does. -/
def pipelineAfterRecipe (sess : Session) (apiKey : Option String)
    (imgOutcome : ImgOutcome) (svcNutrition : SvcOutcome) (rv : JVal) : Session :=
  match getKey rv "image_keywords" with
  | some (.str kw) =>
    let url := generate_recipe_image apiKey kw imgOutcome
    match jsonParse (get_nutritional_info (jsonDumps rv) svcNutrition) with
    | none => ⟨some rv, sess.nutrition_data, some url⟩
    | some nv => ⟨some rv, some nv, some url⟩
  | _ => ⟨some rv, sess.nutrition_data, sess.image_url⟩

/-- The button handler of lines 216-234.  Empty `ingredients` only warns
(no state change).  Otherwise, inside one `try` caught at line 233, the
recipe tool runs, its (always JSON-parseable) result is stored in
`recipe_data`, and the run continues with `pipelineAfterRecipe`.  The
`none` fallback is unreachable but keeps the definition total. -/
def runPipeline (sess : Session) (ingredients dietary_needs : String)
    (apiKey : Option String) (svcRecipe : SvcOutcome) (imgOutcome : ImgOutcome)
    (svcNutrition : SvcOutcome) : Session :=
  if ingredients = "" then sess
  else
    match jsonParse (create_recipe ingredients dietary_needs svcRecipe) with
    | none => sess
    | some rv => pipelineAfterRecipe sess apiKey imgOutcome svcNutrition rv

/-! ### Helper lemmas about `dropWhile`, `pyStrip`, `stripNumPrefix` -/

theorem dropWhile_head_not {α} (p : α → Bool) :
    ∀ (l : List α) (c : α), (l.dropWhile p).head? = some c → p c = false := by
  intro l
  induction l with
  | nil => intro c h; simp [List.dropWhile] at h
  | cons a t ih =>
    intro c h
    rw [List.dropWhile_cons] at h
    by_cases hp : p a = true
    · rw [if_pos hp] at h
      exact ih c h
    · rw [if_neg hp] at h
      simp at h
      cases hb : p a with
      | true => exact absurd hb hp
      | false => rw [← h]; exact hb

theorem dropWhile_eq_self {α} (p : α → Bool) (l : List α)
    (h : ∀ c, l.head? = some c → p c = false) : l.dropWhile p = l := by
  cases l with
  | nil => rfl
  | cons a t =>
    rw [List.dropWhile_cons, h a rfl]
    simp

theorem getLast_dropWhile_ne_nil {α} (p : α → Bool) :
    ∀ (l : List α), l.dropWhile p ≠ [] → (l.dropWhile p).getLast? = l.getLast? := by
  intro l
  induction l with
  | nil => intro h; exact absurd rfl h
  | cons a t ih =>
    intro h
    rw [List.dropWhile_cons] at h ⊢
    by_cases hp : p a = true
    · rw [if_pos hp] at h ⊢
      have ht : t ≠ [] := by
        intro he
        apply h
        rw [he]
        simp
      cases t with
      | nil => exact absurd rfl ht
      | cons b t2 => rw [List.getLast?_cons_cons]; exact ih h
    · rw [if_neg hp]

theorem pyStrip_head_not (l : List Char) :
    ∀ c, (pyStrip l).head? = some c → pySpace c = false := by
  intro c h
  unfold pyStrip at h
  rw [List.head?_reverse] at h
  have hne : (l.dropWhile pySpace).reverse.dropWhile pySpace ≠ [] := by
    intro he
    rw [he] at h
    simp at h
  rw [getLast_dropWhile_ne_nil pySpace _ hne, List.getLast?_reverse] at h
  exact dropWhile_head_not pySpace l c h

theorem pyStrip_getLast_not (l : List Char) :
    ∀ c, (pyStrip l).getLast? = some c → pySpace c = false := by
  intro c h
  unfold pyStrip at h
  rw [List.getLast?_reverse] at h
  exact dropWhile_head_not pySpace (l.dropWhile pySpace).reverse c h

theorem pyStrip_idem (l : List Char) : pyStrip (pyStrip l) = pyStrip l := by
  conv_lhs => rw [pyStrip]
  rw [dropWhile_eq_self pySpace (pyStrip l) (pyStrip_head_not l)]
  rw [dropWhile_eq_self pySpace (pyStrip l).reverse
    (fun c h => pyStrip_getLast_not l c (by rw [List.head?_reverse] at h; exact h))]
  exact List.reverse_reverse _

theorem stripNumPrefix_eq_of_head_not_digit (l : List Char)
    (h : ∀ c, l.head? = some c → isDig c = false) : stripNumPrefix l = l := by
  cases l with
  | nil => rfl
  | cons a t =>
    unfold stripNumPrefix
    rw [List.takeWhile_cons, h a rfl]
    simp

/-! ### Claim C6 — instruction-prefix cleaning -/

/-- C6 (counterexample): the cleaning function is *not* idempotent on every
string.  On `"1. 2. Mix well"` the regex deletes only the first numeral
prefix (`"1. "`), leaving `"2. Mix well"`, and a second application deletes
the next one, yielding `"Mix well"` — so applying it twice differs from
applying it once. -/
theorem cleanStep_not_idem :
    cleanStep "1. 2. Mix well" = "2. Mix well" ∧
    cleanStep (cleanStep "1. 2. Mix well") = "Mix well" ∧
    cleanStep (cleanStep "1. 2. Mix well") ≠ cleanStep "1. 2. Mix well" :=
  ⟨rfl, rfl, by decide⟩

/-- C6 (amended): the cleaning function maps `"Preheat the oven"` to itself,
`"1. Preheat the oven"` to `"Preheat the oven"`, `"2) Mix well"` to
`"Mix well"`, leaves alphabetic bullets (`"a) ..."`) and dash bullets
(`"- ..."`) unstripped, and applying it twice equals applying it once on
every string whose cleaned form does not begin with a digit (in particular
on all already-clean text); it is not idempotent on arbitrary strings. -/
theorem cleanStep_spec :
    cleanStep "Preheat the oven" = "Preheat the oven" ∧
    cleanStep "1. Preheat the oven" = "Preheat the oven" ∧
    cleanStep "2) Mix well" = "Mix well" ∧
    cleanStep "a) Chop the onions" = "a) Chop the onions" ∧
    cleanStep "- Stir gently" = "- Stir gently" ∧
    ∀ s : String, startsWithDigit (cleanStep s) = false →
      cleanStep (cleanStep s) = cleanStep s := by
  refine ⟨rfl, rfl, rfl, rfl, rfl, ?_⟩
  intro s h
  have hd : ∀ c, (pyStrip (stripNumPrefix s.data)).head? = some c → isDig c = false := by
    intro c hc
    cases hl : pyStrip (stripNumPrefix s.data) with
    | nil => rw [hl] at hc; simp at hc
    | cons x xs =>
      rw [hl] at hc
      simp at hc
      have h2 : isDig x = false := by
        have hcs : cleanStep s = String.mk (x :: xs) := by
          unfold cleanStep
          rw [hl]
        rw [hcs] at h
        simpa [startsWithDigit] using h
      rw [← hc]
      exact h2
  show String.mk (pyStrip (stripNumPrefix (pyStrip (stripNumPrefix s.data))))
    = String.mk (pyStrip (stripNumPrefix s.data))
  rw [stripNumPrefix_eq_of_head_not_digit _ hd, pyStrip_idem]

/-- C6 (witness): the idempotence clause of `cleanStep_spec` applied at the
already-clean string `"Preheat the oven"`. -/
theorem cleanStep_spec_witness :
    startsWithDigit (cleanStep "Preheat the oven") = false ∧
    cleanStep (cleanStep "Preheat the oven") = cleanStep "Preheat the oven" :=
  ⟨rfl, cleanStep_spec.2.2.2.2.2 "Preheat the oven" rfl⟩

/-! ### Claim C9 — download filename -/

/-- C9: the download filename replaces every character outside
`[a-zA-Z0-9]` by an underscore and appends `".pdf"`; in particular
`"Spicy Garlic Shrimp!"` yields `"Spicy_Garlic_Shrimp_.pdf"`. -/
theorem pdfFileName_spec :
    pdfFileName "Spicy Garlic Shrimp!" = "Spicy_Garlic_Shrimp_.pdf" ∧
    ∀ t : String, (pdfFileName t).data
      = t.data.map (fun c => if isAsciiAlnum c then c else '_') ++ ".pdf".data := by
  refine ⟨rfl, ?_⟩
  intro t
  show (t.data.map fun c => if !isAsciiAlnum c then '_' else c) ++ ".pdf".data = _
  congr 1
  have hfun : (fun c => if !isAsciiAlnum c then '_' else c)
      = (fun c => if isAsciiAlnum c then c else '_') := by
    funext c
    cases h : isAsciiAlnum c <;> simp [h]
  rw [hfun]

/-! ### Helper lemmas about `pyReplace` -/

theorem pyReplaceF_length_le (pat : List Char) :
    ∀ (fuel : Nat) (l : List Char), (pyReplaceF pat fuel l).length ≤ l.length := by
  intro fuel
  induction fuel with
  | zero => intro l; exact Nat.le_refl _
  | succ n ih =>
    intro l
    cases l with
    | nil => exact Nat.le_refl _
    | cons c cs =>
      show (if !pat.isEmpty && pat.isPrefixOf (c :: cs)
            then pyReplaceF pat n (List.drop (pat.length - 1) cs)
            else c :: pyReplaceF pat n cs).length ≤ (c :: cs).length
      by_cases h : (!pat.isEmpty && pat.isPrefixOf (c :: cs)) = true
      · rw [if_pos h]
        calc (pyReplaceF pat n (List.drop (pat.length - 1) cs)).length
            ≤ (List.drop (pat.length - 1) cs).length := ih _
          _ = cs.length - (pat.length - 1) := List.length_drop _ _
          _ ≤ (c :: cs).length := by simp [List.length_cons]; omega
      · rw [if_neg h]
        simp only [List.length_cons]
        exact Nat.succ_le_succ (ih cs)

theorem pyReplaceF_id_of_not_contains (pat : List Char) :
    ∀ (fuel : Nat) (l : List Char), containsSub pat l = false → pyReplaceF pat fuel l = l := by
  intro fuel
  induction fuel with
  | zero => intro l _; rfl
  | succ n ih =>
    intro l h
    cases l with
    | nil => rfl
    | cons c cs =>
      cases hpre : pat.isPrefixOf (c :: cs) with
      | true =>
        exfalso
        have hh : containsSub pat (c :: cs) = true := by
          show (pat.isPrefixOf (c :: cs) || containsSub pat cs) = true
          rw [hpre]
          exact Bool.true_or _
        rw [hh] at h
        exact Bool.noConfusion h
      | false =>
        have h2 : containsSub pat cs = false := by
          have hh : (pat.isPrefixOf (c :: cs) || containsSub pat cs) = false := h
          rw [hpre] at hh
          simpa using hh
        show (if !pat.isEmpty && pat.isPrefixOf (c :: cs)
              then pyReplaceF pat n (List.drop (pat.length - 1) cs)
              else c :: pyReplaceF pat n cs) = c :: cs
        rw [if_neg (by simp [hpre])]
        rw [ih cs h2]

theorem pyReplaceF_length_lt (pat : List Char) (hp : pat ≠ []) :
    ∀ (fuel : Nat) (l : List Char), containsSub pat l = true → l.length < fuel →
      (pyReplaceF pat fuel l).length < l.length := by
  intro fuel
  induction fuel with
  | zero => intro l _ hl; exact absurd hl (Nat.not_lt_zero _)
  | succ n ih =>
    intro l h hl
    cases l with
    | nil =>
      exfalso
      cases pat with
      | nil => exact hp rfl
      | cons p ps => exact Bool.noConfusion h
    | cons c cs =>
      cases hpre : pat.isPrefixOf (c :: cs) with
      | true =>
        have hcond : (!pat.isEmpty && pat.isPrefixOf (c :: cs)) = true := by
          rw [hpre]
          cases pat with
          | nil => exact absurd rfl hp
          | cons p ps => rfl
        show (if !pat.isEmpty && pat.isPrefixOf (c :: cs)
              then pyReplaceF pat n (List.drop (pat.length - 1) cs)
              else c :: pyReplaceF pat n cs).length < (c :: cs).length
        rw [if_pos hcond]
        have hle := pyReplaceF_length_le pat n (List.drop (pat.length - 1) cs)
        rw [List.length_drop] at hle
        simp only [List.length_cons]
        omega
      | false =>
        have h2 : containsSub pat cs = true := by
          have hh : (pat.isPrefixOf (c :: cs) || containsSub pat cs) = true := h
          rw [hpre] at hh
          simpa using hh
        show (if !pat.isEmpty && pat.isPrefixOf (c :: cs)
              then pyReplaceF pat n (List.drop (pat.length - 1) cs)
              else c :: pyReplaceF pat n cs).length < (c :: cs).length
        rw [if_neg (by simp [hpre])]
        simp only [List.length_cons] at hl ⊢
        have := ih cs h2 (by omega)
        omega

theorem pyReplace_length_le (pat l : List Char) : (pyReplace pat l).length ≤ l.length :=
  pyReplaceF_length_le pat _ l

theorem pyReplace_length_lt (pat l : List Char) (hp : pat ≠ [])
    (h : containsSub pat l = true) : (pyReplace pat l).length < l.length :=
  pyReplaceF_length_lt pat hp _ l h (Nat.lt_succ_self _)

theorem pyReplace_id_of_not_contains (pat l : List Char)
    (h : containsSub pat l = false) : pyReplace pat l = l :=
  pyReplaceF_id_of_not_contains pat _ l h

theorem dropWhile_length_le {α} (p : α → Bool) :
    ∀ (l : List α), (l.dropWhile p).length ≤ l.length := by
  intro l
  induction l with
  | nil => exact Nat.le_refl _
  | cons a t ih =>
    rw [List.dropWhile_cons]
    by_cases h : p a = true
    · rw [if_pos h]; exact Nat.le_trans ih (Nat.le_succ _)
    · rw [if_neg h]

theorem pyStrip_length_le (l : List Char) : (pyStrip l).length ≤ l.length := by
  unfold pyStrip
  calc ((l.dropWhile pySpace).reverse.dropWhile pySpace).reverse.length
      = ((l.dropWhile pySpace).reverse.dropWhile pySpace).length := List.length_reverse _
    _ ≤ (l.dropWhile pySpace).reverse.length := dropWhile_length_le _ _
    _ = (l.dropWhile pySpace).length := List.length_reverse _
    _ ≤ l.length := dropWhile_length_le _ _

/-! ### Claim C10 — global fence deletion -/

/-- C10: the fence stripping of lines 55 and 87 deletes occurrences of
`"```json"` and `"```"` anywhere in the response, not only a wrapping
fence: every response containing `"```"` is altered before being handed to
`json.loads` (first conjunct: the stripped text always differs from the
original), and on concrete payloads with an inner or middle fence exactly
those characters are removed (remaining conjuncts; the last one shows the
intended wrapping-fence use). -/
theorem fence_strip_global :
    (∀ s : String, containsSub "```".data s.data = true → json_content_of s ≠ s) ∧
    json_content_of "\x7b\"a\": \"x```y\"\x7d" = "\x7b\"a\": \"xy\"\x7d" ∧
    json_content_of "pre ```json mid ``` post" = "pre  mid  post" ∧
    json_content_of "```json\n\x7b\"a\": 1\x7d\n```" = "\x7b\"a\": 1\x7d" := by
  refine ⟨?_, rfl, rfl, rfl⟩
  intro s h heq
  have key : (pyStrip (pyReplace "```".data (pyReplace "```json".data s.data))).length
      < s.data.length := by
    cases hj : containsSub "```json".data s.data with
    | true =>
      have h1 : (pyReplace "```json".data s.data).length < s.data.length :=
        pyReplace_length_lt _ _ (by decide) hj
      have h2 := pyReplace_length_le "```".data (pyReplace "```json".data s.data)
      have h3 := pyStrip_length_le (pyReplace "```".data (pyReplace "```json".data s.data))
      omega
    | false =>
      rw [pyReplace_id_of_not_contains _ _ hj]
      have h1 : (pyReplace "```".data s.data).length < s.data.length :=
        pyReplace_length_lt _ _ (by decide) h
      have h3 := pyStrip_length_le (pyReplace "```".data s.data)
      omega
  have hlen : (json_content_of s).length < s.length := key
  rw [heq] at hlen
  exact Nat.lt_irrefl _ hlen

/-- C10 (witness): the universal clause of `fence_strip_global` applied to a
JSON payload with a fence inside a string literal. -/
theorem fence_strip_global_witness :
    containsSub "```".data ("\x7b\"k\": \"a```b\"\x7d" : String).data = true ∧
    json_content_of "\x7b\"k\": \"a```b\"\x7d" ≠ "\x7b\"k\": \"a```b\"\x7d" :=
  ⟨by decide, fence_strip_global.1 "\x7b\"k\": \"a```b\"\x7d" (by decide)⟩

/-! ### Helper lemmas about the two generation tools -/

theorem jsonParse_sentinelRecipe : jsonParse sentinelRecipeJson = some sentinelRecipeVal := rfl

theorem jsonParse_sentinelNutrition :
    jsonParse sentinelNutritionJson = some sentinelNutritionVal := rfl

theorem create_recipe_parse_isSome (ing diet : String) (svc : SvcOutcome) :
    (jsonParse (create_recipe ing diet svc)).isSome = true := by
  cases svc with
  | raised =>
    show (jsonParse sentinelRecipeJson).isSome = true
    rw [jsonParse_sentinelRecipe]
    rfl
  | content raw =>
    show (jsonParse (if jsonValid (json_content_of raw) then json_content_of raw
      else sentinelRecipeJson)).isSome = true
    by_cases h : jsonValid (json_content_of raw) = true
    · rw [if_pos h]
      exact h
    · rw [if_neg h, jsonParse_sentinelRecipe]
      rfl

theorem get_nutritional_info_parse_isSome (t : String) (svc : SvcOutcome) :
    (jsonParse (get_nutritional_info t svc)).isSome = true := by
  cases svc with
  | raised =>
    show (jsonParse sentinelNutritionJson).isSome = true
    rw [jsonParse_sentinelNutrition]
    rfl
  | content raw =>
    show (jsonParse (if jsonValid (json_content_of raw) then json_content_of raw
      else sentinelNutritionJson)).isSome = true
    by_cases h : jsonValid (json_content_of raw) = true
    · rw [if_pos h]
      exact h
    · rw [if_neg h, jsonParse_sentinelNutrition]
      rfl

/-! ### Claim C1 — `create_recipe` error policy -/

/-- C1 (counterexample): a service response that is a well-formed JSON object
missing the required keys is *not* replaced by the sentinel — `create_recipe`
returns the text unchanged, and the parsed result has no `image_keywords`
(or `description`, `ingredients`, `instructions`) member, so the caller does
not receive a record with all five fields populated. -/
theorem create_recipe_shape_not_validated :
    create_recipe "chicken, broccoli" "None" (.content "\x7b\"title\": \"x\"\x7d")
      = "\x7b\"title\": \"x\"\x7d" ∧
    "\x7b\"title\": \"x\"\x7d" ≠ sentinelRecipeJson ∧
    jsonParse "\x7b\"title\": \"x\"\x7d" = some (.obj (.cons "title" (.str "x") .nil)) ∧
    getKey (.obj (.cons "title" (.str "x") .nil)) "image_keywords" = none :=
  ⟨rfl, by decide, rfl, rfl⟩

/-- C1 (amended): no exception is ever visible to the caller and the result
always parses as JSON; a raised service call or a non-JSON response (after
fence stripping) is replaced by the sentinel record; but a response that is
valid JSON — of whatever shape, including an object missing required keys —
is returned unchanged, with no shape validation. -/
theorem create_recipe_error_policy :
    (∀ ing diet, create_recipe ing diet .raised = sentinelRecipeJson) ∧
    (∀ ing diet raw, jsonValid (json_content_of raw) = false →
      create_recipe ing diet (.content raw) = sentinelRecipeJson) ∧
    (∀ ing diet raw, jsonValid (json_content_of raw) = true →
      create_recipe ing diet (.content raw) = json_content_of raw) ∧
    (∀ ing diet svc, (jsonParse (create_recipe ing diet svc)).isSome = true) := by
  refine ⟨fun _ _ => rfl, ?_, ?_, create_recipe_parse_isSome⟩
  · intro ing diet raw h
    show (if jsonValid (json_content_of raw) then json_content_of raw
      else sentinelRecipeJson) = sentinelRecipeJson
    rw [if_neg (by simp [h])]
  · intro ing diet raw h
    show (if jsonValid (json_content_of raw) then json_content_of raw
      else sentinelRecipeJson) = json_content_of raw
    rw [if_pos h]

/-- C1 (witness): `create_recipe_error_policy` applied to a non-JSON
response. -/
theorem create_recipe_error_policy_witness :
    jsonValid (json_content_of "oops, not json") = false ∧
    create_recipe "chicken" "None" (.content "oops, not json") = sentinelRecipeJson :=
  ⟨by decide, create_recipe_error_policy.2.1 "chicken" "None" "oops, not json" (by decide)⟩

/-! ### Claim C4 — the sentinel record -/

/-- C4 (counterexample): the record returned on failure has description
`"Please try again."`, which is not the empty string — the claim's `§3`
gloss (`empty description`) contradicts the literal it itself states, and
the code matches the literal. -/
theorem sentinel_description_not_empty :
    create_recipe "i" "d" .raised = sentinelRecipeJson ∧
    jsonParse sentinelRecipeJson = some sentinelRecipeVal ∧
    getKey sentinelRecipeVal "description" = some (.str "Please try again.") ∧
    ("Please try again." : String) ≠ "" :=
  ⟨rfl, rfl, rfl, by decide⟩

/-- C4 (amended): if the service raises or returns text that is not valid
JSON after fence stripping, `create_recipe` returns exactly
`json.dumps` of the sentinel dict `{title: "Failed to generate recipe",
description: "Please try again.", ingredients: [], instructions: [],
image_keywords: ""}` (whose description is non-empty). -/
theorem create_recipe_sentinel_literal :
    sentinelRecipeJson = "\x7b\"title\": \"Failed to generate recipe\", \"description\": \"Please try again.\", \"ingredients\": [], \"instructions\": [], \"image_keywords\": \"\"\x7d" ∧
    (∀ ing diet, create_recipe ing diet .raised = sentinelRecipeJson) ∧
    (∀ ing diet raw, jsonValid (json_content_of raw) = false →
      create_recipe ing diet (.content raw) = sentinelRecipeJson) := by
  refine ⟨rfl, fun _ _ => rfl, ?_⟩
  intro ing diet raw h
  show (if jsonValid (json_content_of raw) then json_content_of raw
    else sentinelRecipeJson) = sentinelRecipeJson
  rw [if_neg (by simp [h])]

/-- C4 (witness): `create_recipe_sentinel_literal` applied to a response
that is still not JSON after its fence is stripped. -/
theorem create_recipe_sentinel_literal_witness :
    jsonValid (json_content_of "```json garbage```") = false ∧
    create_recipe "pasta" "Vegan" (.content "```json garbage```") = sentinelRecipeJson :=
  ⟨by decide, create_recipe_sentinel_literal.2.2 "pasta" "Vegan" "```json garbage```" (by decide)⟩

/-! ### Claim C7 — `get_nutritional_info` error policy -/

/-- C7: `get_nutritional_info` never lets an exception reach the caller (its
result always parses as JSON); on a raised call or a response that is not
valid JSON after fence stripping it returns exactly `json.dumps` of
`{calories: 0, protein_grams: 0, fat_grams: 0, carbs_grams: 0, summary:
"Nutritional info unavailable."}`; and for a fixed service outcome its
result is independent of the recipe text it was given — in particular of
whether that text serializes the sentinel RecipeRecord. -/
theorem get_nutritional_info_policy :
    sentinelNutritionJson = "\x7b\"calories\": 0, \"protein_grams\": 0, \"fat_grams\": 0, \"carbs_grams\": 0, \"summary\": \"Nutritional info unavailable.\"\x7d" ∧
    (∀ t, get_nutritional_info t .raised = sentinelNutritionJson) ∧
    (∀ t raw, jsonValid (json_content_of raw) = false →
      get_nutritional_info t (.content raw) = sentinelNutritionJson) ∧
    (∀ t svc, (jsonParse (get_nutritional_info t svc)).isSome = true) ∧
    (∀ t t2 svc, get_nutritional_info t svc = get_nutritional_info t2 svc) := by
  refine ⟨rfl, fun _ => rfl, ?_, get_nutritional_info_parse_isSome, fun _ _ _ => rfl⟩
  intro t raw h
  show (if jsonValid (json_content_of raw) then json_content_of raw
    else sentinelNutritionJson) = sentinelNutritionJson
  rw [if_neg (by simp [h])]

/-- C7 (witness): `get_nutritional_info_policy` applied to a non-JSON
response, with the recipe text being the serialized sentinel recipe. -/
theorem get_nutritional_info_policy_witness :
    jsonValid (json_content_of "mystery meat") = false ∧
    get_nutritional_info sentinelRecipeJson (.content "mystery meat") = sentinelNutritionJson :=
  ⟨by decide, get_nutritional_info_policy.2.2.1 sentinelRecipeJson "mystery meat" (by decide)⟩

/-! ### Claim C2 — `generate_recipe_image` totality -/

/-- C2 (counterexample): in the success-with-results outcome the function
returns the service's `src.original` string verbatim, so it is not always a
non-empty URL (first two conjuncts: an empty photo URL is passed through);
and a non-2xx status outside 400-599 with a parseable body behaves like
success rather than yielding the fallback (last two conjuncts, status 304). -/
theorem generate_recipe_image_url_passthrough :
    generate_recipe_image (some "key") "pasta" (.resp 200 (some [""])) = "" ∧
    ("" : String).length = 0 ∧
    generate_recipe_image (some "key") "pasta" (.resp 304 (some ["http://x.jpg"])) = "http://x.jpg" ∧
    "http://x.jpg" ≠ fallback_image :=
  ⟨rfl, rfl, rfl, by decide⟩

/-- C2 (amended): `generate_recipe_image` is total; with an absent or empty
credential it returns the fallback and its result does not depend on the
transport outcome at all (no request is consulted); it returns exactly the
(non-empty) fallback on transport error, 4xx/5xx status, unparseable or
wrongly-shaped body, and empty `photos`; and on a parseable response with
status outside 400-599 and a nonempty `photos` array it returns the first
photo's `src.original` verbatim — non-empty exactly when the service's URL
is. -/
theorem generate_recipe_image_total :
    (∀ key kw o, keyFalsy key = true → generate_recipe_image key kw o = fallback_image) ∧
    (∀ key kw o o2, keyFalsy key = true →
      generate_recipe_image key kw o = generate_recipe_image key kw o2) ∧
    (∀ key kw, keyFalsy key = false →
      generate_recipe_image key kw .transportRaise = fallback_image) ∧
    (∀ key kw st ph, keyFalsy key = false → (400 ≤ st && st ≤ 599) = true →
      generate_recipe_image key kw (.resp st ph) = fallback_image) ∧
    (∀ key kw st, keyFalsy key = false → (400 ≤ st && st ≤ 599) = false →
      generate_recipe_image key kw (.resp st none) = fallback_image) ∧
    (∀ key kw st, keyFalsy key = false → (400 ≤ st && st ≤ 599) = false →
      generate_recipe_image key kw (.resp st (some [])) = fallback_image) ∧
    (∀ key kw st u us, keyFalsy key = false → (400 ≤ st && st ≤ 599) = false →
      generate_recipe_image key kw (.resp st (some (u :: us))) = u) ∧
    fallback_image ≠ "" := by
  refine ⟨?_, ?_, ?_, ?_, ?_, ?_, ?_, by decide⟩
  · intro key kw o h
    simp [generate_recipe_image, h]
  · intro key kw o o2 h
    simp [generate_recipe_image, h]
  · intro key kw h
    simp [generate_recipe_image, h]
  · intro key kw st ph h hb
    simp [generate_recipe_image, h, hb]
  · intro key kw st h hb
    simp [generate_recipe_image, h, hb]
  · intro key kw st h hb
    simp [generate_recipe_image, h, hb]
  · intro key kw st u us h hb
    simp [generate_recipe_image, h, hb]

/-- C2 (witness): `generate_recipe_image_total` applied with a missing key
(fallback, no dependence on the outcome) and with a present key on a 200
response carrying one photo. -/
theorem generate_recipe_image_total_witness :
    keyFalsy none = true ∧
    keyFalsy (some "k") = false ∧
    ((400 ≤ 200 && 200 ≤ 599) = false) ∧
    generate_recipe_image none "kw" .transportRaise = fallback_image ∧
    generate_recipe_image (some "k") "kw" (.resp 200 (some ["http://a.jpg"])) = "http://a.jpg" :=
  ⟨rfl, rfl, by decide, generate_recipe_image_total.1 none "kw" .transportRaise rfl,
   generate_recipe_image_total.2.2.2.2.2.2.1 (some "k") "kw" 200 "http://a.jpg" [] rfl (by decide)⟩

/-! ### Claim C3 — image fetch failure during rendering -/

/-- C3 (counterexample): a raised image fetch (timeout or transport error)
is not silently omitted — the image block's `try` has a `finally` but no
`except`, so the exception escapes `create_recipe_pdf` and none of the
remaining blocks is produced; a non-200 *status* (second conjunct) is the
silent-omission case, and the status test is `== 200` exactly, so even a
2xx status other than 200 (third conjunct, 201) omits the image instead of
embedding it. -/
theorem create_recipe_pdf_fetch_error_aborts :
    (create_recipe_pdf sampleRecipe sampleNutrition "http://img" ⟨.raise, .ok, .ok⟩).fst
      = Except.error PdfErr.imageFetchRaised ∧
    (create_recipe_pdf sampleRecipe sampleNutrition "http://img" ⟨.resp 404, .ok, .ok⟩).fst
      = Except.ok (pdfBlocksNoImage sampleRecipe sampleNutrition) ∧
    (create_recipe_pdf sampleRecipe sampleNutrition "http://img" ⟨.resp 201, .ok, .ok⟩).fst
      = Except.ok (pdfBlocksNoImage sampleRecipe sampleNutrition) :=
  ⟨rfl, rfl, rfl⟩

/-- C3 (amended): rendering never aborts because of a non-200 fetch
*status*: the image block is omitted and every remaining block is still
produced; on a status-200 response (exactly 200, not any 2xx) with
successful staging and embedding the image is embedded; but an exception in
the fetch itself (timeout, transport error) or in the embedding propagates
out of `create_recipe_pdf` and aborts rendering. -/
theorem create_recipe_pdf_image_policy :
    (∀ r n u w e, create_recipe_pdf r n u ⟨.raise, w, e⟩
      = (Except.error .imageFetchRaised, false)) ∧
    (∀ r n u st w e, st ≠ 200 → create_recipe_pdf r n u ⟨.resp st, w, e⟩
      = (Except.ok (pdfBlocksNoImage r n), false)) ∧
    (∀ r n u, create_recipe_pdf r n u ⟨.resp 200, .ok, .ok⟩
      = (Except.ok (pdfBlocksWithImage r n), false)) ∧
    (∀ r n u, create_recipe_pdf r n u ⟨.resp 200, .ok, .raise⟩
      = (Except.error .imageEmbedRaised, false)) := by
  refine ⟨fun _ _ _ _ _ => rfl, ?_, fun _ _ _ => rfl, fun _ _ _ => rfl⟩
  intro r n u st w e h
  show (if st = 200 then _ else (Except.ok (pdfBlocksNoImage r n), false))
    = (Except.ok (pdfBlocksNoImage r n), false)
  rw [if_neg h]

/-- C3 (witness): `create_recipe_pdf_image_policy` applied to a 404 status —
the image block is omitted and the full remaining document is produced. -/
theorem create_recipe_pdf_image_policy_witness :
    (404 : Nat) ≠ 200 ∧
    create_recipe_pdf sampleRecipe sampleNutrition "http://img" ⟨.resp 404, .ok, .ok⟩
      = (Except.ok (pdfBlocksNoImage sampleRecipe sampleNutrition), false) :=
  ⟨by decide,
   create_recipe_pdf_image_policy.2.1 sampleRecipe sampleNutrition "http://img" 404 .ok .ok
     (by decide)⟩

/-! ### Claim C8 — temp-file release -/

/-- C8 (code evaluation): the staged temp file is removed on the embed-raise
path, on the success path, and (vacuously — no file was created) on the
fetch-raise path; but when the staging *write* raises after the file is
created and before `image_path = tmp_file.name` runs, the `finally` sees
`image_path = None` and the file is left on disk. -/
theorem create_recipe_pdf_staging_leak :
    (create_recipe_pdf sampleRecipe sampleNutrition "http://img" ⟨.resp 200, .raise, .ok⟩).snd
      = true ∧
    (create_recipe_pdf sampleRecipe sampleNutrition "http://img" ⟨.resp 200, .ok, .raise⟩).snd
      = false ∧
    (create_recipe_pdf sampleRecipe sampleNutrition "http://img" ⟨.resp 200, .ok, .ok⟩).snd
      = false ∧
    (create_recipe_pdf sampleRecipe sampleNutrition "http://img" ⟨.raise, .ok, .ok⟩).snd
      = false :=
  ⟨rfl, rfl, rfl, rfl⟩

/-! ### Claim C5 — session-state update -/

/-- C5 (counterexample): the session update is not all-or-nothing.  Starting
from a populated session, a run whose recipe response is valid JSON without
an `image_keywords` key stops (KeyError) after `recipe_data` has already
been overwritten: the session ends with the new recipe next to the previous
run's nutrition and image — a mixed result set from two different runs. -/
theorem runPipeline_partial_update :
    runPipeline ⟨some .null, some .null, some "http://old.jpg"⟩ "chicken" "None" none
        (.content "\x7b\"title\": \"New\"\x7d") .transportRaise .raised
      = ⟨some (.obj (.cons "title" (.str "New") .nil)), some .null, some "http://old.jpg"⟩ ∧
    some (JVal.obj (.cons "title" (.str "New") .nil)) ≠ some JVal.null :=
  ⟨rfl, fun h => JVal.noConfusion (Option.some.inj h)⟩

/-- C5 (amended): the three session slots are assigned sequentially, not
atomically.  With empty ingredients nothing changes.  Otherwise the parsed
recipe always exists and is stored first; if it has no *string*
`image_keywords` member the run stops there, keeping the previous run's
nutrition and image beside the new recipe; if it does, the image URL and
then the parsed nutrition record are stored as well, overwriting all three
slots. -/
theorem runPipeline_session_update :
    (∀ sess diet key o1 oi o2, runPipeline sess "" diet key o1 oi o2 = sess) ∧
    (∀ sess ing diet key o1 oi o2 rv, ing ≠ "" →
      jsonParse (create_recipe ing diet o1) = some rv →
      ((∀ kw, getKey rv "image_keywords" ≠ some (.str kw)) →
        runPipeline sess ing diet key o1 oi o2
          = ⟨some rv, sess.nutrition_data, sess.image_url⟩) ∧
      (∀ kw, getKey rv "image_keywords" = some (.str kw) →
        ∃ nv, jsonParse (get_nutritional_info (jsonDumps rv) o2) = some nv ∧
          runPipeline sess ing diet key o1 oi o2
            = ⟨some rv, some nv, some (generate_recipe_image key kw oi)⟩)) := by
  constructor
  · intro sess diet key o1 oi o2
    simp [runPipeline]
  · intro sess ing diet key o1 oi o2 rv hing h1
    constructor
    · intro hnone
      unfold runPipeline
      rw [if_neg hing, h1]
      show pipelineAfterRecipe sess key oi o2 rv = _
      unfold pipelineAfterRecipe
      cases hk : getKey rv "image_keywords" with
      | none => rfl
      | some v =>
        cases v with
        | str kw => exact absurd hk (hnone kw)
        | null => rfl
        | bool b => rfl
        | num lex => rfl
        | arr es => rfl
        | obj ms => rfl
    · intro kw hkw
      have hnut := get_nutritional_info_parse_isSome (jsonDumps rv) o2
      obtain ⟨nv, hnv⟩ := Option.isSome_iff_exists.mp hnut
      refine ⟨nv, hnv, ?_⟩
      unfold runPipeline
      rw [if_neg hing, h1]
      show pipelineAfterRecipe sess key oi o2 rv = _
      unfold pipelineAfterRecipe
      rw [hkw, hnv]

/-- C5 (witness): the all-slots-overwritten branch of
`runPipeline_session_update`, at a run whose recipe call raises — the
sentinel parses, its `image_keywords` is the (string) empty string, and the
run overwrites all three slots. -/
theorem runPipeline_session_update_witness :
    ("chicken" : String) ≠ "" ∧
    jsonParse (create_recipe "chicken" "None" .raised) = some sentinelRecipeVal ∧
    getKey sentinelRecipeVal "image_keywords" = some (.str "") ∧
    ∃ nv, jsonParse (get_nutritional_info (jsonDumps sentinelRecipeVal) .raised) = some nv ∧
      runPipeline ⟨none, none, none⟩ "chicken" "None" none .raised .transportRaise .raised
        = ⟨some sentinelRecipeVal, some nv, some (generate_recipe_image none "" .transportRaise)⟩ :=
  ⟨by decide, rfl, rfl,
   (runPipeline_session_update.2 ⟨none, none, none⟩ "chicken" "None" none .raised
       .transportRaise .raised sentinelRecipeVal (by decide) rfl).2 "" rfl⟩
